import Mathlib

/-!
# Verification of `plaintext.go` (package `jose`)

The file `plaintext.go` implements the JOSE "none" signing algorithm: a type
`Plaintext` with the three methods `Name`, `Verify` and `Sign`, and a package
`init` function that registers an instance with `RegisterJws`.

The embedding is shallow.  Go values are represented as follows.

* `[]byte` is `ByteSlice`: either the nil slice or a non-nil slice with a list
  of bytes (`Fin 256`) as contents.
* `interface{}` is `GoAny`: either the nil interface or a dynamically typed
  value.
* `error` is `Option GoError`, where `none` is the nil error.
* the receiver `*Plaintext` is `PlaintextPtr`: either the nil pointer or a pointer to a
  struct value.
* a function with several results returns a tuple.

The constant `NONE`, the interface `JwsAlgorithm`, the registry and the function
`RegisterJws` are declared elsewhere in the package; they are modelled from the
specification and marked as such.
-/

namespace jose

/-! ## Go values -/

/-- One byte. -/
abbrev Byte := Fin 256

/-- A Go `[]byte` value: `nil` is the nil slice, `mk elems` a non-nil slice whose
contents are `elems`. -/
inductive ByteSlice where
  | nil : ByteSlice
  | mk (elems : List Byte) : ByteSlice
  deriving DecidableEq, Repr

/-- Go's builtin `len` on a `[]byte`. -/
def ByteSlice.len : ByteSlice → Nat
  | ByteSlice.nil => 0
  | ByteSlice.mk elems => elems.length

/-- A Go `interface{}` value, as far as a key can be told apart: the nil
interface, or a value together with its dynamic type. -/
inductive GoAny where
  | nil : GoAny
  | bytes (b : ByteSlice) : GoAny
  | str (s : String) : GoAny
  | int (n : Int) : GoAny
  | boxed (typeName : String) (repr : List Byte) : GoAny
  deriving DecidableEq, Repr

/-- A non-nil Go `error` value. The Go type `error` is `Option GoError`, with
`none` for the nil error. -/
structure GoError where
  msg : String
  deriving DecidableEq, Repr

/-! ## The source: `plaintext.go` -/

/-- Modelled from the spec: the constant `NONE`, which `plaintext.go` uses and does
not declare. The spec gives the algorithm identity as the string token `"none"`
of the JOSE "none" algorithm ("no digital signature or MAC performed"). -/
def NONE : String := "none"

/-- The Go declaration `type Plaintext struct{}`. -/
structure Plaintext where
  deriving DecidableEq, Repr

/-- A Go pointer `*Plaintext`, the receiver type of the three methods: `none` is the nil
pointer, `some v` a pointer to the struct value `v`. No method dereferences its
receiver, so each of them can be called on the nil pointer as well. -/
abbrev PlaintextPtr := Option Plaintext

/-- The Go method `func (alg *Plaintext) Name() string { return NONE }`. -/
def Plaintext.Name (_alg : PlaintextPtr) : String :=
  NONE

/-- The Go method
`func (alg *Plaintext) Verify(securedInput []byte, signature []byte, key interface{}) error`
with body `return nil`. -/
def Plaintext.Verify (_alg : PlaintextPtr) (_securedInput : ByteSlice) (_signature : ByteSlice)
    (_key : GoAny) : Option GoError :=
  none

/-- The Go method
`func (alg *Plaintext) Sign(securedInput []byte, key interface{}) (signature []byte, err error)`
with body `return []byte{},nil`. -/
def Plaintext.Sign (_alg : PlaintextPtr) (_securedInput : ByteSlice) (_key : GoAny) :
    ByteSlice × Option GoError :=
  (ByteSlice.mk [], none)

/-- The Go expression `new(Plaintext)`: a pointer to a fresh zero value of the struct. -/
def newPlaintext : PlaintextPtr :=
  some {}

/-- The bytes of the Go conversion `[]byte("header.payload")` (14 ASCII characters). -/
def headerPayload : ByteSlice :=
  ByteSlice.mk [104, 101, 97, 100, 101, 114, 46, 112, 97, 121, 108, 111, 97, 100]

/-! ## The registry -/

/-- Modelled from the spec: the capability interface `JwsAlgorithm`, declared outside
`plaintext.go`. The spec describes it as "any value satisfying {Name, Verify, Sign}",
with the signatures of the three methods of `Plaintext`. -/
structure JwsAlgorithm where
  Name : String
  Verify : ByteSlice → ByteSlice → GoAny → Option GoError
  Sign : ByteSlice → GoAny → ByteSlice × Option GoError

/-- The value of a `*Plaintext` seen through the interface: Go's implicit conversion at
the call `RegisterJws(new(Plaintext))`. -/
def Plaintext.toJwsAlgorithm (alg : PlaintextPtr) : JwsAlgorithm :=
  { Name := Plaintext.Name alg, Verify := Plaintext.Verify alg, Sign := Plaintext.Sign alg }

/-- Modelled from the spec: the algorithm registry, declared outside `plaintext.go`.
The spec describes it as "a process-wide mapping from algorithm-name string to an
object satisfying the signing/verification capability". It is an association list
with at most one entry in use for each key. -/
abbrev Registry := List (String × JwsAlgorithm)

/-- Modelled from the spec: looking a name up in the registry ("looking up the
algorithm by its canonical name in the registry"). -/
def lookupJws : Registry → String → Option JwsAlgorithm
  | [], _ => none
  | (k, a) :: rest, key => if k = key then some a else lookupJws rest key

/-- Modelled from the spec: binding a name to an algorithm in the registry, replacing
what the name was bound to. -/
def storeJws (reg : Registry) (key : String) (alg : JwsAlgorithm) : Registry :=
  (key, alg) :: reg.filter (fun e => decide (e.1 ≠ key))

/-- Modelled from the spec: what the registry does when a name is registered twice. The
spec leaves it open and lists the three possibilities "overwrite, reject, or panic". -/
inductive DuplicatePolicy where
  | overwrite : DuplicatePolicy
  | reject : DuplicatePolicy
  | panic : DuplicatePolicy
  deriving DecidableEq, Repr

/-- Modelled from the spec: the function `RegisterJws`, declared outside `plaintext.go`.
The spec says an algorithm "registers itself into the process-wide algorithm registry
keyed by its `Name()`". A fresh name is bound to the algorithm; a name already bound is
handled by the duplicate policy. The result `none` is a panic. -/
def RegisterJws (policy : DuplicatePolicy) (alg : JwsAlgorithm) (reg : Registry) :
    Option Registry :=
  match lookupJws reg alg.Name with
  | none => some (storeJws reg alg.Name alg)
  | some _ =>
    match policy with
    | DuplicatePolicy.overwrite => some (storeJws reg alg.Name alg)
    | DuplicatePolicy.reject => some reg
    | DuplicatePolicy.panic => none

/-- The Go function `func init() { RegisterJws(new(Plaintext)) }`, acting on the
registry. -/
def init (policy : DuplicatePolicy) (reg : Registry) : Option Registry :=
  RegisterJws policy (Plaintext.toJwsAlgorithm newPlaintext) reg

/-- Modelled from the spec: the registrations of the other algorithm modules, which run
one after the other during package initialization and stop at the first panic. -/
def registerAll (policy : DuplicatePolicy) : List JwsAlgorithm → Registry → Option Registry
  | [], reg => some reg
  | alg :: rest, reg =>
    match RegisterJws policy alg reg with
    | none => none
    | some next => registerAll policy rest next

/-- A registry is keyed by name when every entry is stored under the `Name` of its
algorithm. -/
def KeyedByName (reg : Registry) : Prop :=
  ∀ e ∈ reg, e.2.Name = e.1

instance (reg : Registry) : Decidable (KeyedByName reg) :=
  inferInstanceAs (Decidable (∀ e ∈ reg, e.2.Name = e.1))

/-- A registry answers by name when every lookup that succeeds returns an algorithm
whose `Name` is the key that was looked up. -/
def AnswersByName (reg : Registry) : Prop :=
  ∀ key alg, lookupJws reg key = some alg → alg.Name = key

/-! ## Explicit state -/

/-- The part of the process state that a call of `Sign` or `Verify` could touch: the
algorithm registry (a package-level variable) and the caller's two byte sequences,
which Go passes by reference to their backing arrays. -/
structure ProcState where
  registry : Registry
  securedInput : ByteSlice
  signature : ByteSlice

/-- State-passing form of `Plaintext.Verify`: the call reads its slice arguments from the
state and returns its result with the state it leaves behind. The body `return nil`
has no assignment, so the state is handed back as it came. -/
def Plaintext.VerifyST (alg : PlaintextPtr) (key : GoAny) (st : ProcState) :
    Option GoError × ProcState :=
  (Plaintext.Verify alg st.securedInput st.signature key, st)

/-- State-passing form of `Plaintext.Sign`: the body `return []byte{},nil` allocates a
fresh slice for its result and has no assignment, so the state is handed back as it
came. -/
def Plaintext.SignST (alg : PlaintextPtr) (key : GoAny) (st : ProcState) :
    (ByteSlice × Option GoError) × ProcState :=
  (Plaintext.Sign alg st.securedInput key, st)

/-! ## Theorems -/

/-- C1: for every receiver, every secured input, every signature (nil, empty, non-empty,
unrelated to the input) and every key (the nil interface included), `Verify` returns
the nil error. -/
theorem verify_returns_no_error (alg : PlaintextPtr) (securedInput signature : ByteSlice)
    (key : GoAny) : Plaintext.Verify alg securedInput signature key = none := by
  unfold Plaintext.Verify
  rfl

/-- C2: for every secured input and every key (the nil interface included), `Sign`
returns the nil error and a signature of length 0. -/
theorem sign_returns_empty_signature (alg : PlaintextPtr) (securedInput : ByteSlice)
    (key : GoAny) :
    (Plaintext.Sign alg securedInput key).2 = none ∧
    (Plaintext.Sign alg securedInput key).1.len = 0 := by
  constructor
  · simp [Plaintext.Sign]
  · simp [Plaintext.Sign, ByteSlice.len]

/-- C3: `Name` returns the constant `NONE` for every receiver, hence the same value on
every call, and `NONE` is the string `"none"` of the JOSE "none" algorithm. -/
theorem name_returns_none_constant (alg other : PlaintextPtr) :
    Plaintext.Name alg = NONE ∧ Plaintext.Name alg = Plaintext.Name other ∧
    NONE = "none" := by
  refine ⟨?_, ?_, ?_⟩
  · simp [Plaintext.Name]
  · simp [Plaintext.Name]
  · simp [NONE]

/-- C4: signing then verifying round-trips. For every secured input and all keys `k1`,
`k2`, `Sign` does return a pair `(sig, nil)`, and whenever it returns `(sig, nil)` the
call `Verify securedInput sig k2` returns the nil error. For the input
`"header.payload"` and the nil key, `Sign` returns the non-nil empty slice with the nil
error, and `Verify` accepts both the empty signature and the signature `[0x01]`. -/
theorem sign_then_verify_roundtrip (alg : PlaintextPtr) :
    (∀ (securedInput : ByteSlice) (k1 k2 : GoAny),
      (∃ sig, Plaintext.Sign alg securedInput k1 = (sig, none)) ∧
      (∀ sig, Plaintext.Sign alg securedInput k1 = (sig, none) →
        Plaintext.Verify alg securedInput sig k2 = none)) ∧
    Plaintext.Sign alg headerPayload GoAny.nil = (ByteSlice.mk [], none) ∧
    Plaintext.Verify alg headerPayload (ByteSlice.mk []) GoAny.nil = none ∧
    Plaintext.Verify alg headerPayload (ByteSlice.mk [1]) GoAny.nil = none := by
  refine ⟨?_, ?_, ?_, ?_⟩
  · intro securedInput k1 k2
    constructor
    · exact ⟨ByteSlice.mk [], by simp [Plaintext.Sign]⟩
    · intro sig _
      simp [Plaintext.Verify]
  · simp [Plaintext.Sign]
  · simp [Plaintext.Verify]
  · simp [Plaintext.Verify]

/-- Witness for C4: at the input `"header.payload"` with the nil key, `Sign` returns the
empty signature with the nil error, and the round trip gives the nil error. -/
theorem sign_then_verify_roundtrip_witness :
    Plaintext.Sign newPlaintext headerPayload GoAny.nil = (ByteSlice.mk [], none) ∧
    Plaintext.Verify newPlaintext headerPayload (ByteSlice.mk []) GoAny.nil = none :=
  ⟨rfl, ((sign_then_verify_roundtrip newPlaintext).1 headerPayload GoAny.nil GoAny.nil).2
    (ByteSlice.mk []) rfl⟩

/-! ### The registry after initialization -/

/-- A name bound by `storeJws` is found with the algorithm it was bound to. -/
theorem lookupJws_storeJws_same (reg : Registry) (key : String) (alg : JwsAlgorithm) :
    lookupJws (storeJws reg key alg) key = some alg := by
  simp [storeJws, lookupJws]

/-- Dropping the entries of one key does not change what another key is bound to. -/
theorem lookupJws_filter_other (reg : Registry) (key other : String) (hne : other ≠ key) :
    lookupJws (reg.filter (fun e => decide (e.1 ≠ key))) other = lookupJws reg other := by
  induction reg with
  | nil => rfl
  | cons e rest ih =>
    obtain ⟨k, a⟩ := e
    by_cases hk : k = key
    · have hko : ¬ k = other := fun h => hne (h.symm.trans hk)
      rw [List.filter_cons_of_neg (by simp [hk]), ih]
      simp only [lookupJws, if_neg hko]
    · rw [List.filter_cons_of_pos (by simp [hk])]
      by_cases hko : k = other
      · simp only [lookupJws, if_pos hko]
      · simp only [lookupJws, if_neg hko]
        exact ih

/-- Binding one name with `storeJws` does not change what another name is bound to. -/
theorem lookupJws_storeJws_other (reg : Registry) (key other : String) (alg : JwsAlgorithm)
    (hne : other ≠ key) :
    lookupJws (storeJws reg key alg) other = lookupJws reg other := by
  have hko : ¬ key = other := fun h => hne h.symm
  simp only [storeJws, lookupJws, hko, if_false]
  exact lookupJws_filter_other reg key other hne

/-- A registry keyed by name answers by name. -/
theorem answersByName_of_keyed (reg : Registry) (hkeyed : KeyedByName reg) :
    AnswersByName reg := by
  induction reg with
  | nil =>
    intro key alg h
    simp [lookupJws] at h
  | cons e rest ih =>
    obtain ⟨k, a⟩ := e
    intro key alg h
    have hhead : a.Name = k := hkeyed (k, a) (List.mem_cons_self _ _)
    have hrest : KeyedByName rest := fun x hx => hkeyed x (List.mem_cons_of_mem _ hx)
    by_cases hk : k = key
    · simp [lookupJws, hk] at h
      rw [← h, hhead, hk]
    · simp [lookupJws, hk] at h
      exact ih hrest key alg h

/-- A registration that completes keeps the registry answering by name. -/
theorem RegisterJws_answersByName (policy : DuplicatePolicy) (alg : JwsAlgorithm)
    (reg next : Registry) (hreg : AnswersByName reg)
    (hnext : RegisterJws policy alg reg = some next) : AnswersByName next := by
  have hstore : AnswersByName (storeJws reg alg.Name alg) := by
    intro key found h
    by_cases hk : key = alg.Name
    · rw [hk, lookupJws_storeJws_same] at h
      rw [hk]
      exact (Option.some.inj h) ▸ rfl
    · rw [lookupJws_storeJws_other reg alg.Name key alg hk] at h
      exact hreg key found h
  unfold RegisterJws at hnext
  cases hl : lookupJws reg alg.Name with
  | none =>
    rw [hl] at hnext
    exact (Option.some.inj hnext) ▸ hstore
  | some old =>
    rw [hl] at hnext
    cases policy with
    | overwrite => exact (Option.some.inj hnext) ▸ hstore
    | reject => exact (Option.some.inj hnext) ▸ hreg
    | panic => simp at hnext

/-- A registration that completes leaves every bound name bound. -/
theorem RegisterJws_keeps_bound (policy : DuplicatePolicy) (alg : JwsAlgorithm)
    (reg next : Registry) (key : String) (hbound : (lookupJws reg key).isSome)
    (hnext : RegisterJws policy alg reg = some next) : (lookupJws next key).isSome := by
  have hstore : (lookupJws (storeJws reg alg.Name alg) key).isSome := by
    by_cases hk : key = alg.Name
    · rw [hk, lookupJws_storeJws_same]
      rfl
    · rw [lookupJws_storeJws_other reg alg.Name key alg hk]
      exact hbound
  unfold RegisterJws at hnext
  cases hl : lookupJws reg alg.Name with
  | none =>
    rw [hl] at hnext
    exact (Option.some.inj hnext) ▸ hstore
  | some old =>
    rw [hl] at hnext
    cases policy with
    | overwrite => exact (Option.some.inj hnext) ▸ hstore
    | reject => exact (Option.some.inj hnext) ▸ hbound
    | panic => simp at hnext

/-- A registration that completes binds the name of the registered algorithm. -/
theorem RegisterJws_binds_name (policy : DuplicatePolicy) (alg : JwsAlgorithm)
    (reg next : Registry) (hnext : RegisterJws policy alg reg = some next) :
    (lookupJws next alg.Name).isSome := by
  unfold RegisterJws at hnext
  cases hl : lookupJws reg alg.Name with
  | none =>
    rw [hl] at hnext
    rw [← Option.some.inj hnext, lookupJws_storeJws_same]
    rfl
  | some old =>
    rw [hl] at hnext
    cases policy with
    | overwrite =>
      rw [← Option.some.inj hnext, lookupJws_storeJws_same]
      rfl
    | reject =>
      rw [← Option.some.inj hnext, hl]
      rfl
    | panic => simp at hnext

/-- A run of registrations that completes keeps the registry answering by name and
leaves every bound name bound. -/
theorem registerAll_keeps (policy : DuplicatePolicy) (algs : List JwsAlgorithm)
    (reg final : Registry) (key : String) (hreg : AnswersByName reg)
    (hbound : (lookupJws reg key).isSome)
    (hfinal : registerAll policy algs reg = some final) :
    AnswersByName final ∧ (lookupJws final key).isSome := by
  induction algs generalizing reg with
  | nil =>
    simp [registerAll] at hfinal
    exact hfinal ▸ ⟨hreg, hbound⟩
  | cons alg rest ih =>
    unfold registerAll at hfinal
    cases hstep : RegisterJws policy alg reg with
    | none => simp [hstep] at hfinal
    | some next =>
      rw [hstep] at hfinal
      exact ih next (RegisterJws_answersByName policy alg reg next hreg hstep)
        (RegisterJws_keeps_bound policy alg reg next key hbound hstep) hfinal

/-- Under the policies `overwrite` and `reject` a registration never panics. -/
theorem RegisterJws_completes (policy : DuplicatePolicy) (alg : JwsAlgorithm)
    (reg : Registry) (hpolicy : policy ≠ DuplicatePolicy.panic) :
    (RegisterJws policy alg reg).isSome := by
  unfold RegisterJws
  cases lookupJws reg alg.Name with
  | none => rfl
  | some old =>
    cases policy with
    | overwrite => rfl
    | reject => rfl
    | panic => exact absurd rfl hpolicy

/-- C5: after package initialization the registry answers the key `Plaintext.Name()` with
an algorithm of that name. The registry `reg` that `init` finds is keyed by name; `init`
runs `RegisterJws(new(Plaintext))` and completes with `afterInit`; the registrations
`later` of the other modules complete with `final`. Then, whatever the duplicate policy,
looking up `Name()` in `final` yields an algorithm whose `Name` is that key. -/
theorem lookup_after_init (policy : DuplicatePolicy) (reg afterInit final : Registry)
    (later : List JwsAlgorithm) (alg : PlaintextPtr)
    (hkeyed : KeyedByName reg)
    (hinit : init policy reg = some afterInit)
    (hlater : registerAll policy later afterInit = some final) :
    ∃ found, lookupJws final (Plaintext.Name alg) = some found ∧
      found.Name = Plaintext.Name alg := by
  have hreg : AnswersByName reg := answersByName_of_keyed reg hkeyed
  have hafter : AnswersByName afterInit :=
    RegisterJws_answersByName policy (Plaintext.toJwsAlgorithm newPlaintext) reg afterInit
      hreg hinit
  have hbound : (lookupJws afterInit (Plaintext.Name alg)).isSome :=
    RegisterJws_binds_name policy (Plaintext.toJwsAlgorithm newPlaintext) reg afterInit hinit
  obtain ⟨hfinal, hsome⟩ :=
    registerAll_keeps policy later afterInit final (Plaintext.Name alg) hafter hbound hlater
  cases hl : lookupJws final (Plaintext.Name alg) with
  | none => simp [hl] at hsome
  | some found => exact ⟨found, rfl, hfinal (Plaintext.Name alg) found hl⟩

/-- Witness for C5: `init` runs on the empty registry under the policy `reject`, and a
second registration of the same algorithm follows. -/
theorem lookup_after_init_witness :
    KeyedByName [] ∧
    init DuplicatePolicy.reject [] = some [(NONE, Plaintext.toJwsAlgorithm newPlaintext)] ∧
    registerAll DuplicatePolicy.reject [Plaintext.toJwsAlgorithm newPlaintext]
        [(NONE, Plaintext.toJwsAlgorithm newPlaintext)] =
      some [(NONE, Plaintext.toJwsAlgorithm newPlaintext)] ∧
    ∃ found,
      lookupJws [(NONE, Plaintext.toJwsAlgorithm newPlaintext)] (Plaintext.Name newPlaintext) =
        some found ∧
      found.Name = Plaintext.Name newPlaintext :=
  ⟨by decide, rfl, rfl,
    lookup_after_init DuplicatePolicy.reject [] [(NONE, Plaintext.toJwsAlgorithm newPlaintext)]
      [(NONE, Plaintext.toJwsAlgorithm newPlaintext)] [Plaintext.toJwsAlgorithm newPlaintext]
      newPlaintext (by decide) rfl rfl⟩

/-- C6: `Sign` and `Verify` are deterministic. Of two consecutive calls with the same
arguments, the second returns what the first returned: the same error for `Verify`, the
same pair of signature and error for `Sign`. The results do not depend on the contents
of the registry either. -/
theorem sign_verify_deterministic (alg : PlaintextPtr) (key : GoAny) (st : ProcState) :
    (Plaintext.VerifyST alg key (Plaintext.VerifyST alg key st).2).1 =
      (Plaintext.VerifyST alg key st).1 ∧
    (Plaintext.SignST alg key (Plaintext.SignST alg key st).2).1 =
      (Plaintext.SignST alg key st).1 ∧
    (∀ reg : Registry,
      (Plaintext.VerifyST alg key ⟨reg, st.securedInput, st.signature⟩).1 =
        (Plaintext.VerifyST alg key st).1) ∧
    (∀ reg : Registry,
      (Plaintext.SignST alg key ⟨reg, st.securedInput, st.signature⟩).1 =
        (Plaintext.SignST alg key st).1) := by
  refine ⟨?_, ?_, ?_, ?_⟩
  · simp [Plaintext.VerifyST]
  · simp [Plaintext.SignST]
  · intro reg
    simp [Plaintext.VerifyST]
  · intro reg
    simp [Plaintext.SignST]

/-- C7: `Sign` and `Verify` have no side effect on the explicit state. The state is the
registry together with the caller's secured input and signature; every call of `Verify`
or `Sign` hands back the state it was given, so all three components are unchanged. -/
theorem sign_verify_leave_state_unchanged (alg : PlaintextPtr) (key : GoAny)
    (st : ProcState) :
    (Plaintext.VerifyST alg key st).2 = st ∧ (Plaintext.SignST alg key st).2 = st ∧
    (Plaintext.VerifyST alg key st).2.registry = st.registry ∧
    (Plaintext.VerifyST alg key st).2.securedInput = st.securedInput ∧
    (Plaintext.VerifyST alg key st).2.signature = st.signature ∧
    (Plaintext.SignST alg key st).2.registry = st.registry ∧
    (Plaintext.SignST alg key st).2.securedInput = st.securedInput ∧
    (Plaintext.SignST alg key st).2.signature = st.signature := by
  simp [Plaintext.VerifyST, Plaintext.SignST]

/-- C8: the output of `Sign` does not depend on its inputs. For all secured inputs `s1`,
`s2` and all keys `k1`, `k2`, the two calls return the same signature and the same
error. -/
theorem sign_output_independent_of_inputs (alg other : PlaintextPtr) (s1 s2 : ByteSlice)
    (k1 k2 : GoAny) :
    (Plaintext.Sign alg s1 k1).1 = (Plaintext.Sign other s2 k2).1 ∧
    (Plaintext.Sign alg s1 k1).2 = (Plaintext.Sign other s2 k2).2 := by
  simp [Plaintext.Sign]

/-- C9: `Verify` gives no integrity protection. For every signature and every key there
are two different secured inputs that `Verify` both accepts, and the result of `Verify`
is the same for all secured inputs, signatures and keys. -/
theorem verify_gives_no_integrity (alg : PlaintextPtr) :
    (∀ (signature : ByteSlice) (key : GoAny), ∃ s1 s2 : ByteSlice, s1 ≠ s2 ∧
      Plaintext.Verify alg s1 signature key = none ∧
      Plaintext.Verify alg s2 signature key = none) ∧
    (∀ (s1 s2 sig1 sig2 : ByteSlice) (k1 k2 : GoAny),
      Plaintext.Verify alg s1 sig1 k1 = Plaintext.Verify alg s2 sig2 k2) := by
  constructor
  · intro signature key
    refine ⟨headerPayload, ByteSlice.mk [0], by decide, ?_, ?_⟩
    · simp [Plaintext.Verify]
    · simp [Plaintext.Verify]
  · intro s1 s2 sig1 sig2 k1 k2
    simp [Plaintext.Verify]

end jose
